import Mathlib

/-!
# Index and flag arithmetic of `src/pmc/pla_matrix_types.h`

A shallow embedding of the accessor and flag-test definitions of the header.

Conventions of the embedding.

* Every preprocessor definition of the header becomes a Lean function of the
  same name.  Arguments are integer values (the header's definitions are text
  substitutions; they are embedded as applied to atomic operands such as
  variables, literals or parenthesised expressions).
* One body, `I_INDEX_XY_COLMAJOR`, writes a parameter without parentheses of
  its own.  Its reading on argument text that is a sum or a difference is
  `I_INDEX_XY_COLMAJOR_text`, over the argument texts `ArgText`.
* `INTVAL` quantities (sizes, coordinates, offsets, flags) are unbounded
  integers (C leaves signed overflow undefined; for in-range coordinates every
  intermediate value of the real index lies between 0 and the buffer length,
  see `INDEX_XY_ROWMAJOR_bounds` and `INDEX_XY_COLMAJOR_bounds`).
* Flags are read as two's complement bit patterns, so `&`, `|` and `~` are
  `Int.land`, `Int.lor` and `Int.lnot`; bit `k` of a flag value `f` is
  `Int.testBit f k`.
* A C truth value is an integer, true when it is not zero.
* Reading `s[i]` from a buffer is `readAt s i`, which has no result outside
  the buffer.
-/

namespace PLA

/-! ## Matrix flags (header lines 136-149) -/

/-- Header text `#define FLAG_TRANSPOSED 0x01` -/
def FLAG_TRANSPOSED : Int := 0x01

/-- Header text `#define FLAG_SYMMETRIC 0x02` -/
def FLAG_SYMMETRIC : Int := 0x02

/-- Header text `#define FLAG_HERMITIAN 0x04` -/
def FLAG_HERMITIAN : Int := 0x04

/-- Header text `#define FLAG_UTRIANGLE 0x08` -/
def FLAG_UTRIANGLE : Int := 0x08

/-- Header text `#define FLAG_LTRIANGLE 0x10` -/
def FLAG_LTRIANGLE : Int := 0x10

/-- Header text `#define FLAG_TRIANGLE (FLAG_UTRIANGLE) | (FLAG_LTRIANGLE)`: the value of the
replacement text wherever it stands as an operand of its own (inside
parentheses). -/
def FLAG_TRIANGLE : Int := Int.lor FLAG_UTRIANGLE FLAG_LTRIANGLE

/-- Header text `#define FLAG_TRIDIAGONAL 0x20` -/
def FLAG_TRIDIAGONAL : Int := 0x20

/-- Header text `#define FLAG_TINY 0x40` -/
def FLAG_TINY : Int := 0x40

/-- The replacement text
`(FLAG_SYMMETRIC) | (FLAG_HERMITIAN) | (FLAG_LTRIANGLE) | (FLAG_UTRIANGLE) | (FLAG_TRIDIAGONAL)`
of `FLAG_DIAGONAL`, evaluated wherever it stands as an operand of its own
(inside parentheses); `|` associates to the left. -/
def FLAG_DIAGONAL : Int :=
  Int.lor (Int.lor (Int.lor (Int.lor FLAG_SYMMETRIC FLAG_HERMITIAN) FLAG_LTRIANGLE)
    FLAG_UTRIANGLE) FLAG_TRIDIAGONAL

/-! ## Logical flag checks (header lines 151-161) -/

/-- The C truth value of a comparison: `1` when it holds, `0` otherwise. -/
def cBool (p : Prop) [Decidable p] : Int := if p then 1 else 0

/-- Header text `#define IS_GENERAL(flags) ((! (flags)))` -/
def IS_GENERAL (flags : Int) : Int := cBool (flags = 0)

/-- Header text `#define IS_TINY(flags) (((flags) & (FLAG_TINY)))` -/
def IS_TINY (flags : Int) : Int := Int.land flags FLAG_TINY

/-- Header text `#define IS_SYMMETRIC(flags) (((flags) & (FLAG_SYMMETRIC)))` -/
def IS_SYMMETRIC (flags : Int) : Int := Int.land flags FLAG_SYMMETRIC

/-- Header text `#define IS_HERMITIAN(flags) (((flags) & (FLAG_HERMITIAN)))` -/
def IS_HERMITIAN (flags : Int) : Int := Int.land flags FLAG_HERMITIAN

/-- Header text `#define IS_UTRIANGLE(flags) (((flags) & (FLAG_UTRIANGLE)))` -/
def IS_UTRIANGLE (flags : Int) : Int := Int.land flags FLAG_UTRIANGLE

/-- Header text `#define IS_LTRIANGLE(flags) (((flags) & (FLAG_LTRIANGLE)))` -/
def IS_LTRIANGLE (flags : Int) : Int := Int.land flags FLAG_LTRIANGLE

/-- Header text `#define IS_TRIANGLE(flags) (((flags) & (FLAG_TRIANGLE)))`: the replacement
text of `FLAG_TRIANGLE` stands inside parentheses here. -/
def IS_TRIANGLE (flags : Int) : Int := Int.land flags FLAG_TRIANGLE

/-- Header text `#define IS_DIAGONAL(flags) ((((flags) & (FLAG_DIAGONAL)) == FLAG_DIAGONAL))`.

The right operand of `==` is the bare replacement text of `FLAG_DIAGONAL`, so
after preprocessing the body reads
`((flags) & (D)) == (FLAG_SYMMETRIC) | (FLAG_HERMITIAN) | (FLAG_LTRIANGLE) | (FLAG_UTRIANGLE) | (FLAG_TRIDIAGONAL)`
where `D` is the parenthesised five-flag mask.  In C `==` binds tighter than
`|`, so the comparison is against `FLAG_SYMMETRIC` alone and its truth value
is then or-ed with the four remaining flags, from left to right. -/
def IS_DIAGONAL (flags : Int) : Int :=
  Int.lor (Int.lor (Int.lor (Int.lor
    (cBool (Int.land flags FLAG_DIAGONAL = FLAG_SYMMETRIC))
    FLAG_HERMITIAN) FLAG_LTRIANGLE) FLAG_UTRIANGLE) FLAG_TRIDIAGONAL

/-- Header text `#define IS_TRIDIAGONAL(flags) (((flags) & (FLAG_TRIDIAGONAL)))` -/
def IS_TRIDIAGONAL (flags : Int) : Int := Int.land flags FLAG_TRIDIAGONAL

/-- Header text `#define IS_TRANSPOSED(flags) (((flags) & (FLAG_TRANSPOSED)))` -/
def IS_TRANSPOSED (flags : Int) : Int := Int.land flags FLAG_TRANSPOSED

/-! ## Real-valued matrix accessors (header lines 54-73) -/

/-- Header text `#define INDEX_XY_ROWMAJOR(numrows, numcols, row, col) (((row) * (numcols)) + (col))` -/
def INDEX_XY_ROWMAJOR (_numrows numcols row col : Int) : Int :=
  (row * numcols) + col

/-- Header text `#define INDEX_XY_COLMAJOR(numrows, numcols, row, col) (((col) * (numrows)) + (row))` -/
def INDEX_XY_COLMAJOR (numrows _numcols row col : Int) : Int :=
  (col * numrows) + row

/-- Accessor `INDEX_XY(flags, rowsize, colsize, row, col)`: the column-major index when
`IS_TRANSPOSED(flags)` is true (not zero), the row-major index otherwise. -/
def INDEX_XY (flags rowsize colsize row col : Int) : Int :=
  if IS_TRANSPOSED flags ≠ 0 then
    INDEX_XY_COLMAJOR rowsize colsize row col
  else
    INDEX_XY_ROWMAJOR rowsize colsize row col

/-- The C subscript `(s)[i]` on a buffer `s`: the element at offset `i`, and no
result when `i` is negative or not below the length of the buffer. -/
def readAt {α : Type} (s : List α) (i : Int) : Option α :=
  if 0 ≤ i then s[i.toNat]? else none

/-- Header text `#define ITEM_XY(s, flags, rowsize, colsize, row, col) (s)[INDEX_XY(flags, rowsize, colsize, row, col)]` -/
def ITEM_XY {α : Type} (s : List α) (flags rowsize colsize row col : Int) : Option α :=
  readAt s (INDEX_XY flags rowsize colsize row col)

/-! ## Complex-valued matrix accessors (header lines 101-134) -/

/-- Header text `#define R_INDEX_XY_ROWMAJOR(numrows, numcols, row, col) (((row) * (numcols) * 2) + (col))` -/
def R_INDEX_XY_ROWMAJOR (_numrows numcols row col : Int) : Int :=
  (row * numcols * 2) + col

/-- Header text `#define I_INDEX_XY_ROWMAJOR(numrows, numcols, row, col) (((row) * (numcols) * 2) + (col) + 1)` -/
def I_INDEX_XY_ROWMAJOR (_numrows numcols row col : Int) : Int :=
  (row * numcols * 2) + col + 1

/-- Header text `#define R_INDEX_XY_COLMAJOR(numrows, numcols, row, col) (((col) * (numrows) * 2) + (row))` -/
def R_INDEX_XY_COLMAJOR (numrows _numcols row col : Int) : Int :=
  (col * numrows * 2) + row

/-- Header text `#define I_INDEX_XY_COLMAJOR(numrows, numcols, row, col) (((col) * (numrows * 2)) + (row) + 1)`.
The parameter `numrows` stands without parentheses of its own in the body; on
an atomic operand, as embedded here, the value is `col * (numrows * 2) + row + 1`
(`I_INDEX_XY_COLMAJOR_text` is the body on a sum or a difference). -/
def I_INDEX_XY_COLMAJOR (numrows _numcols row col : Int) : Int :=
  (col * (numrows * 2)) + row + 1

/-- Accessor `R_INDEX_XY(flags, rowsize, colsize, row, col)`: offset of the real part,
column-major when `IS_TRANSPOSED(flags)` is true, row-major otherwise. -/
def R_INDEX_XY (flags rowsize colsize row col : Int) : Int :=
  if IS_TRANSPOSED flags ≠ 0 then
    R_INDEX_XY_COLMAJOR rowsize colsize row col
  else
    R_INDEX_XY_ROWMAJOR rowsize colsize row col

/-- Accessor `I_INDEX_XY(flags, rowsize, colsize, row, col)`: offset of the imaginary
part, column-major when `IS_TRANSPOSED(flags)` is true, row-major otherwise. -/
def I_INDEX_XY (flags rowsize colsize row col : Int) : Int :=
  if IS_TRANSPOSED flags ≠ 0 then
    I_INDEX_XY_COLMAJOR rowsize colsize row col
  else
    I_INDEX_XY_ROWMAJOR rowsize colsize row col

/-- Argument text passed for `rowsize` in a call of `I_INDEX_XY`: an atomic
operand (a variable, a literal or a parenthesised expression) of value `v`, the
sum `a + b` or the difference `a - b` of two atomic operands, written without
enclosing parentheses. -/
inductive ArgText where
  | atom (v : Int) : ArgText
  | add (a b : Int) : ArgText
  | sub (a b : Int) : ArgText
deriving DecidableEq, Repr

/-- The value of an argument text as an operand of its own, which is what a
body gets where it writes the parameter inside parentheses, `(numrows)`. -/
def ArgText.value : ArgText → Int
  | ArgText.atom v => v
  | ArgText.add a b => a + b
  | ArgText.sub a b => a - b

/-- The value of the body text `numrows * 2` of header line 110 after the
argument text has replaced `numrows`: `v * 2` for an atomic operand, and
`a + b * 2` or `a - b * 2` for a sum or a difference, since `*` binds tighter
than `+` and `-` in C. -/
def ArgText.timesTwo : ArgText → Int
  | ArgText.atom v => v * 2
  | ArgText.add a b => a + b * 2
  | ArgText.sub a b => a - b * 2

/-- Header text `#define I_INDEX_XY_COLMAJOR(numrows, numcols, row, col) (((col) * (numrows * 2)) + (row) + 1)`
read on argument text: `row` and `col` stand inside parentheses and are values,
`numrows` stands bare in `(numrows * 2)`. -/
def I_INDEX_XY_COLMAJOR_text (numrows : ArgText) (_numcols row col : Int) : Int :=
  (col * numrows.timesTwo) + row + 1

/-- Accessor `I_INDEX_XY(flags, rowsize, colsize, row, col)` read on argument
text for `rowsize`, which the accessor hands on to `I_INDEX_XY_COLMAJOR` and
`I_INDEX_XY_ROWMAJOR` as it stands; the row-major body does not use it. -/
def I_INDEX_XY_text (flags : Int) (rowsize : ArgText) (colsize row col : Int) : Int :=
  if IS_TRANSPOSED flags ≠ 0 then
    I_INDEX_XY_COLMAJOR_text rowsize colsize row col
  else
    I_INDEX_XY_ROWMAJOR rowsize.value colsize row col

/-! ## Descriptor and `SWAP_XY` (header lines 6-10) -/

/-- Modelled from the spec: the matrix descriptor that `SWAP_XY(a)` reaches
through `a->rows` and `a->cols`.  Its C declaration (the attribute structure of
the matrix object) is not part of the header; the spec's data model gives it
the fields `rows`, `cols`, `flags` and `storage`, the flat buffer of scalars
that the header's layout comments call `a->storage`. -/
structure Descriptor (α : Type) where
  rows : Int
  cols : Int
  flags : Int
  storage : List α
deriving DecidableEq, Repr

/-- The statement sequence of `SWAP_XY(a)`:
`const INTVAL __temp_val = a->rows; a->rows = a->cols; a->cols = __temp_val;`
as one assignment after the other on the descriptor. -/
def SWAP_XY {α : Type} (a : Descriptor α) : Descriptor α :=
  let temp_val := a.rows
  let a1 := { a with rows := a.cols }
  { a1 with cols := temp_val }

/-! ## Transpose tag for the kernel interface (header line 162) -/

/-- Modelled from the spec: the transpose tag of the external kernel interface.
The constants `CblasNoTrans` and `CblasTrans` come from `<cblas.h>`, which the
header includes and which is not part of the sources; the spec describes them
as the one enumerated constant "no-transpose" versus "transpose". -/
inductive CBLAS_TRANSPOSE where
  | CblasNoTrans : CBLAS_TRANSPOSE
  | CblasTrans : CBLAS_TRANSPOSE
deriving DecidableEq, Repr

/-- Header text `#define IS_TRANSPOSED_BLAS(flags) (IS_TRANSPOSED(flags) ? CblasTrans : CblasNoTrans)` -/
def IS_TRANSPOSED_BLAS (flags : Int) : CBLAS_TRANSPOSE :=
  if IS_TRANSPOSED flags ≠ 0 then CBLAS_TRANSPOSE.CblasTrans else CBLAS_TRANSPOSE.CblasNoTrans

/-! ## Integer minimum and maximum (header lines 26-27) -/

/-- Header text `#define INDEX_MIN(a, b) (((a) <= (b))?(a):(b))` -/
def INDEX_MIN (a b : Int) : Int := if a ≤ b then a else b

/-- Header text `#define INDEX_MAX(a, b) (((a) >= (b))?(a):(b))` -/
def INDEX_MAX (a b : Int) : Int := if a ≥ b then a else b

/-! ## Bits of integers -/

/-- Two integers with the same bits are equal. -/
theorem int_eq_of_testBit_eq (a b : Int)
    (h : ∀ i, Int.testBit a i = Int.testBit b i) : a = b := by
  have big : ∀ m n : Nat,
      Nat.testBit m (m + n) = false ∧ Nat.testBit n (m + n) = false := by
    intro m n
    constructor
    · apply Nat.testBit_eq_false_of_lt
      exact lt_of_lt_of_le (Nat.lt_two_pow m) (Nat.pow_le_pow_right (by decide) (by omega))
    · apply Nat.testBit_eq_false_of_lt
      exact lt_of_lt_of_le (Nat.lt_two_pow n) (Nat.pow_le_pow_right (by decide) (by omega))
  cases a with
  | ofNat m =>
    cases b with
    | ofNat n =>
      congr 1
      exact Nat.eq_of_testBit_eq h
    | negSucc n =>
      exfalso
      have := h (m + n)
      simp [Int.testBit, (big m n).1, (big m n).2] at this
  | negSucc m =>
    cases b with
    | ofNat n =>
      exfalso
      have := h (m + n)
      simp [Int.testBit, (big m n).1, (big m n).2] at this
    | negSucc n =>
      congr 1
      apply Nat.eq_of_testBit_eq
      intro i
      have := h i
      simpa [Int.testBit] using this

/-- The only bit of `2 ^ k` is bit `k`. -/
theorem testBit_two_pow (k i : Nat) :
    Int.testBit ((2 : Int) ^ k) i = decide (k = i) := by
  have h : ((2 : Int) ^ k) = ((2 ^ k : Nat) : Int) := by push_cast; rfl
  rw [h]
  show Nat.testBit (2 ^ k) i = _
  rw [Nat.testBit_two_pow]

/-- Masking with the single bit `2 ^ k` gives `2 ^ k` when bit `k` is set and
`0` when it is clear. -/
theorem land_two_pow (f : Int) (k : Nat) :
    Int.land f ((2 : Int) ^ k) = if Int.testBit f k = true then (2 : Int) ^ k else 0 := by
  apply int_eq_of_testBit_eq
  intro i
  rw [Int.testBit_land, testBit_two_pow]
  split
  · rename_i h
    rw [testBit_two_pow]
    by_cases hk : k = i
    · subst hk; simp [h]
    · simp [hk]
  · rename_i h
    have z : Int.testBit 0 i = false := by
      show Nat.testBit 0 i = false
      simp
    rw [z]
    by_cases hk : k = i
    · subst hk; simpa using h
    · simp [hk]

/-- Masking with the single bit `2 ^ k` is not zero exactly when bit `k` is set. -/
theorem land_two_pow_ne_zero (f : Int) (k : Nat) :
    Int.land f ((2 : Int) ^ k) ≠ 0 ↔ Int.testBit f k = true := by
  rw [land_two_pow]
  split
  · rename_i h
    simp [h]
  · rename_i h
    simp [h]

/-- The test `IS_TRANSPOSED` is true exactly when bit 0 of the flags is set. -/
theorem IS_TRANSPOSED_ne_zero_iff (flags : Int) :
    IS_TRANSPOSED flags ≠ 0 ↔ Int.testBit flags 0 = true := by
  have h := land_two_pow_ne_zero flags 0
  simpa [IS_TRANSPOSED, FLAG_TRANSPOSED] using h

/-- Setting the Transposed bit with `|` makes `IS_TRANSPOSED` true. -/
theorem IS_TRANSPOSED_lor (f : Int) : IS_TRANSPOSED (Int.lor f FLAG_TRANSPOSED) ≠ 0 := by
  rw [IS_TRANSPOSED_ne_zero_iff, Int.testBit_lor]
  have h : Int.testBit FLAG_TRANSPOSED 0 = true := by decide
  simp [h]

/-- Clearing the Transposed bit with `& ~` makes `IS_TRANSPOSED` false. -/
theorem IS_TRANSPOSED_land_lnot (f : Int) :
    IS_TRANSPOSED (Int.land f (Int.lnot FLAG_TRANSPOSED)) = 0 := by
  by_contra hne
  rw [← ne_eq, IS_TRANSPOSED_ne_zero_iff, Int.testBit_land, Int.testBit_lnot] at hne
  have h : Int.testBit FLAG_TRANSPOSED 0 = true := by decide
  simp [h] at hne

/-! ## Real index: dispatch and transpose symmetry -/

/-- C1: transpose symmetry of the real index.  For every flag value `f` and all
integers `rows`, `cols`, `row`, `col` (in particular all in-range coordinates),
`INDEX_XY` with the Transposed bit set, on the swapped shape and the swapped
coordinate, is the offset `INDEX_XY` gives with the Transposed bit cleared on
the original shape and coordinate; for a 3x4 matrix both sides are 11 at
element (2, 3). -/
theorem INDEX_XY_transpose_symmetry (f rows cols row col : Int) :
    INDEX_XY (Int.lor f FLAG_TRANSPOSED) cols rows col row
        = INDEX_XY (Int.land f (Int.lnot FLAG_TRANSPOSED)) rows cols row col
      ∧ INDEX_XY 0 3 4 2 3 = 11
      ∧ INDEX_XY FLAG_TRANSPOSED 4 3 3 2 = 11 := by
  refine ⟨?_, by decide, by decide⟩
  unfold INDEX_XY
  rw [if_pos (IS_TRANSPOSED_lor f), if_neg (not_not.mpr (IS_TRANSPOSED_land_lnot f))]
  rfl

/-- C3: dispatch of the real index.  For every flag value and all integers
`rowsize`, `colsize`, `row`, `col`, `INDEX_XY` is the column-major offset
`col * rowsize + row` when bit 0 (Transposed) of the flags is set and the
row-major offset `row * colsize + col` when it is clear; replacing every other
flag bit by the bits of an arbitrary value `other` leaves the result unchanged. -/
theorem INDEX_XY_dispatch (flags rowsize colsize row col other : Int) :
    INDEX_XY flags rowsize colsize row col
        = (if Int.testBit flags 0 = true then col * rowsize + row else row * colsize + col)
      ∧ INDEX_XY (Int.lor (Int.land flags FLAG_TRANSPOSED)
            (Int.land other (Int.lnot FLAG_TRANSPOSED))) rowsize colsize row col
        = INDEX_XY flags rowsize colsize row col := by
  have key : ∀ g : Int, INDEX_XY g rowsize colsize row col
      = (if Int.testBit g 0 = true then col * rowsize + row else row * colsize + col) := by
    intro g
    unfold INDEX_XY
    by_cases h : Int.testBit g 0 = true
    · rw [if_pos ((IS_TRANSPOSED_ne_zero_iff g).mpr h), if_pos h]
      rfl
    · rw [if_neg (fun hne => h ((IS_TRANSPOSED_ne_zero_iff g).mp hne)), if_neg h]
      rfl
  refine ⟨key flags, ?_⟩
  rw [key, key]
  have hbit : Int.testBit (Int.lor (Int.land flags FLAG_TRANSPOSED)
      (Int.land other (Int.lnot FLAG_TRANSPOSED))) 0 = Int.testBit flags 0 := by
    rw [Int.testBit_lor, Int.testBit_land, Int.testBit_land, Int.testBit_lnot]
    have h : Int.testBit FLAG_TRANSPOSED 0 = true := by decide
    simp [h]
  rw [hbit]

/-! ## The composite diagonal test -/

/-- C2: evaluation of `IS_DIAGONAL` on the code.  At
`flags = Symmetric|Hermitian|LowerTriangular|UpperTriangular` (Tridiagonal
missing) the body evaluates to `0x3C`, which is true, and at `flags = 0` as
well; for every flag value the result has bit 5 set and is therefore not
zero. -/
theorem IS_DIAGONAL_always_true :
    IS_DIAGONAL (Int.lor (Int.lor (Int.lor FLAG_SYMMETRIC FLAG_HERMITIAN) FLAG_LTRIANGLE)
        FLAG_UTRIANGLE) = 0x3C
      ∧ IS_DIAGONAL 0 = 0x3C
      ∧ ∀ flags : Int, IS_DIAGONAL flags ≠ 0 := by
  refine ⟨by decide, by decide, ?_⟩
  intro flags h0
  have hb : Int.testBit (IS_DIAGONAL flags) 5 = true := by
    unfold IS_DIAGONAL
    rw [Int.testBit_lor]
    have h : Int.testBit FLAG_TRIDIAGONAL 5 = true := by decide
    simp [h]
  rw [h0] at hb
  exact absurd hb (by decide)

/-! ## Complex accessors -/

/-- C4: evaluation of the complex accessors at two distinct elements of a 2x2
matrix.  Untransposed, the imaginary slot of element (0, 0) and the real slot
of element (0, 1) are both offset 1; transposed, the imaginary slot of element
(0, 0) and the real slot of element (1, 0) are both offset 1.  The slot pairs
of distinct in-range elements therefore do have an offset in common. -/
theorem complex_slots_shared :
    ((0 : Int), (0 : Int)) ≠ ((0 : Int), (1 : Int))
      ∧ I_INDEX_XY 0 2 2 0 0 = 1 ∧ R_INDEX_XY 0 2 2 0 1 = 1
      ∧ ((0 : Int), (0 : Int)) ≠ ((1 : Int), (0 : Int))
      ∧ I_INDEX_XY FLAG_TRANSPOSED 2 2 0 0 = 1 ∧ R_INDEX_XY FLAG_TRANSPOSED 2 2 1 0 = 1 := by
  decide

/-- The imaginary offset is the real offset plus one, whatever the flags, on
operand values. -/
theorem I_INDEX_XY_succ (flags rowsize colsize row col : Int) :
    I_INDEX_XY flags rowsize colsize row col = R_INDEX_XY flags rowsize colsize row col + 1 := by
  unfold I_INDEX_XY R_INDEX_XY
  split
  · unfold I_INDEX_XY_COLMAJOR R_INDEX_XY_COLMAJOR
    ring
  · rfl

/-- On an atomic operand the text reading of `I_INDEX_XY` is the value reading. -/
theorem I_INDEX_XY_text_atom (flags v colsize row col : Int) :
    I_INDEX_XY_text flags (ArgText.atom v) colsize row col
      = I_INDEX_XY flags v colsize row col := by
  unfold I_INDEX_XY_text I_INDEX_XY I_INDEX_XY_COLMAJOR_text I_INDEX_XY_COLMAJOR
  rfl

/-- C5: evaluation of the imaginary accessor where `numrows` stands bare in
`(numrows * 2)`.  For the transposed call with `rowsize` written `1 + 1`,
`colsize = 2` and the in-range element (0, 1) the imaginary offset is 4, which
is the real offset and not the real offset plus one; with `rowsize` written
`4 - 3` the imaginary offset is -1 while the real offset is 2.  On a sum
`a + b` the column-major imaginary offset is the real offset plus one minus
`col * a`.  On an atomic operand the imaginary offset is the real offset plus
one for every flag value. -/
theorem I_INDEX_XY_bare_numrows :
    I_INDEX_XY_text FLAG_TRANSPOSED (ArgText.add 1 1) 2 0 1 = 4
      ∧ R_INDEX_XY FLAG_TRANSPOSED (ArgText.add 1 1).value 2 0 1 = 4
      ∧ I_INDEX_XY_text FLAG_TRANSPOSED (ArgText.sub 4 3) 2 0 1 = -1
      ∧ R_INDEX_XY FLAG_TRANSPOSED (ArgText.sub 4 3).value 2 0 1 = 2
      ∧ (∀ a b numcols row col : Int,
          I_INDEX_XY_COLMAJOR_text (ArgText.add a b) numcols row col
            = R_INDEX_XY_COLMAJOR (ArgText.add a b).value numcols row col + 1 - col * a)
      ∧ (∀ flags v colsize row col : Int,
          I_INDEX_XY_text flags (ArgText.atom v) colsize row col
            = R_INDEX_XY flags (ArgText.atom v).value colsize row col + 1) := by
  refine ⟨by decide, by decide, by decide, by decide, ?_, ?_⟩
  · intro a b numcols row col
    unfold I_INDEX_XY_COLMAJOR_text R_INDEX_XY_COLMAJOR ArgText.timesTwo ArgText.value
    ring
  · intro flags v colsize row col
    rw [I_INDEX_XY_text_atom, I_INDEX_XY_succ]
    rfl

/-- C6: for every flag value, `R_INDEX_XY` is `row*colsize*2 + col` when bit 0
(Transposed) of the flags is clear and `col*rowsize*2 + row` when it is set;
for a 2x2 untransposed complex matrix element (1, 1) has real offset 5 and
imaginary offset 6. -/
theorem R_INDEX_XY_dispatch (flags rowsize colsize row col : Int) :
    R_INDEX_XY flags rowsize colsize row col
        = (if Int.testBit flags 0 = true then col * rowsize * 2 + row
           else row * colsize * 2 + col)
      ∧ R_INDEX_XY 0 2 2 1 1 = 5
      ∧ I_INDEX_XY 0 2 2 1 1 = 6 := by
  refine ⟨?_, by decide, by decide⟩
  unfold R_INDEX_XY
  by_cases h : Int.testBit flags 0 = true
  · rw [if_pos ((IS_TRANSPOSED_ne_zero_iff flags).mpr h), if_pos h]
    rfl
  · rw [if_neg (fun hne => h ((IS_TRANSPOSED_ne_zero_iff flags).mp hne)), if_neg h]
    rfl

/-! ## Bounds of the real index -/

/-- A read at an offset inside the buffer has a result. -/
theorem readAt_isSome {α : Type} (s : List α) (i : Int)
    (h0 : 0 ≤ i) (h1 : i < (s.length : Int)) : (readAt s i).isSome = true := by
  unfold readAt
  rw [if_pos h0]
  have hlt : i.toNat < s.length := by omega
  simp [hlt]

/-- Row-major bounds: for an in-range coordinate the product `row * numcols` and
the offset lie between 0 and `numrows * numcols`, so no intermediate value
exceeds the length of the buffer. -/
theorem INDEX_XY_ROWMAJOR_bounds (numrows numcols row col : Int)
    (hr0 : 0 ≤ row) (hr1 : row < numrows) (hc0 : 0 ≤ col) (hc1 : col < numcols) :
    0 ≤ row * numcols ∧ row * numcols ≤ INDEX_XY_ROWMAJOR numrows numcols row col
      ∧ INDEX_XY_ROWMAJOR numrows numcols row col < numrows * numcols := by
  unfold INDEX_XY_ROWMAJOR
  have h1 : 0 ≤ row * numcols := mul_nonneg hr0 (by omega)
  have h2 : (row + 1) * numcols ≤ numrows * numcols :=
    mul_le_mul_of_nonneg_right (by omega) (by omega)
  refine ⟨h1, by omega, ?_⟩
  nlinarith

/-- Column-major bounds: for an in-range coordinate the product `col * numrows`
and the offset lie between 0 and `numrows * numcols`. -/
theorem INDEX_XY_COLMAJOR_bounds (numrows numcols row col : Int)
    (hr0 : 0 ≤ row) (hr1 : row < numrows) (hc0 : 0 ≤ col) (hc1 : col < numcols) :
    0 ≤ col * numrows ∧ col * numrows ≤ INDEX_XY_COLMAJOR numrows numcols row col
      ∧ INDEX_XY_COLMAJOR numrows numcols row col < numrows * numcols := by
  unfold INDEX_XY_COLMAJOR
  have h1 : 0 ≤ col * numrows := mul_nonneg hc0 (by omega)
  have h2 : (col + 1) * numrows ≤ numcols * numrows :=
    mul_le_mul_of_nonneg_right (by omega) (by omega)
  refine ⟨h1, by omega, ?_⟩
  nlinarith

/-- C7: the real index stays inside the buffer.  For every flag value and every
coordinate with `0 <= row < rowsize` and `0 <= col < colsize` (so `rowsize` and
`colsize` are positive), the offset `INDEX_XY` is at least 0 and below
`rowsize*colsize`, and `ITEM_XY` on a storage of at least `rowsize*colsize`
elements has a result. -/
theorem INDEX_XY_in_bounds {α : Type} (s : List α) (flags rowsize colsize row col : Int)
    (hrow : 0 ≤ row ∧ row < rowsize) (hcol : 0 ≤ col ∧ col < colsize)
    (hlen : rowsize * colsize ≤ (s.length : Int)) :
    0 ≤ INDEX_XY flags rowsize colsize row col
      ∧ INDEX_XY flags rowsize colsize row col < rowsize * colsize
      ∧ (ITEM_XY s flags rowsize colsize row col).isSome = true := by
  obtain ⟨hr0, hr1⟩ := hrow
  obtain ⟨hc0, hc1⟩ := hcol
  have hb : 0 ≤ INDEX_XY flags rowsize colsize row col
      ∧ INDEX_XY flags rowsize colsize row col < rowsize * colsize := by
    unfold INDEX_XY
    split
    · obtain ⟨h1, h2, h3⟩ := INDEX_XY_COLMAJOR_bounds rowsize colsize row col hr0 hr1 hc0 hc1
      exact ⟨le_trans h1 h2, h3⟩
    · obtain ⟨h1, h2, h3⟩ := INDEX_XY_ROWMAJOR_bounds rowsize colsize row col hr0 hr1 hc0 hc1
      exact ⟨le_trans h1 h2, h3⟩
  refine ⟨hb.1, hb.2, ?_⟩
  unfold ITEM_XY
  exact readAt_isSome s _ hb.1 (lt_of_lt_of_le hb.2 hlen)

/-- Witness of C7: element (2, 3) of a 3x4 matrix stored in twelve slots. -/
theorem INDEX_XY_in_bounds_witness :
    ((0 : Int) ≤ 2 ∧ (2 : Int) < 3) ∧ ((0 : Int) ≤ 3 ∧ (3 : Int) < 4)
      ∧ (3 : Int) * 4 ≤ (([10, 11, 12, 13, 20, 21, 22, 23, 30, 31, 32, 33] : List Int).length : Int)
      ∧ 0 ≤ INDEX_XY 0 3 4 2 3
      ∧ INDEX_XY 0 3 4 2 3 < 3 * 4
      ∧ (ITEM_XY ([10, 11, 12, 13, 20, 21, 22, 23, 30, 31, 32, 33] : List Int) 0 3 4 2 3).isSome
          = true :=
  ⟨by decide, by decide, by decide,
    INDEX_XY_in_bounds ([10, 11, 12, 13, 20, 21, 22, 23, 30, 31, 32, 33] : List Int) 0 3 4 2 3
      (by decide) (by decide) (by decide)⟩

/-! ## The rows/cols exchange `SWAP_XY` -/

/-- C8, as the claim states it, fails: on the descriptor with `rows = 3`,
`cols = 4` and `flags = 0`, `SWAP_XY` exchanges `rows` and `cols` but the flags
are still 0 afterwards, so the Transposed bit has not been toggled. -/
theorem SWAP_XY_does_not_toggle :
    (SWAP_XY (⟨3, 4, 0, [1, 2]⟩ : Descriptor Int)).rows = 4
      ∧ (SWAP_XY (⟨3, 4, 0, [1, 2]⟩ : Descriptor Int)).cols = 3
      ∧ (SWAP_XY (⟨3, 4, 0, [1, 2]⟩ : Descriptor Int)).flags = 0
      ∧ ¬ (Int.testBit (SWAP_XY (⟨3, 4, 0, [1, 2]⟩ : Descriptor Int)).flags 0
            = !Int.testBit (⟨3, 4, 0, [1, 2]⟩ : Descriptor Int).flags 0) := by
  decide

/-- C8, amended: `SWAP_XY` exchanges the descriptor's `rows` and `cols` fields
and leaves its flags, the Transposed bit included, unchanged. -/
theorem SWAP_XY_exchanges_rows_cols {α : Type} (a : Descriptor α) :
    (SWAP_XY a).rows = a.cols ∧ (SWAP_XY a).cols = a.rows ∧ (SWAP_XY a).flags = a.flags :=
  ⟨rfl, rfl, rfl⟩

/-- C9: applying `SWAP_XY` twice to any descriptor restores its original
`rows`, `cols` and `flags` exactly (and the descriptor as a whole). -/
theorem SWAP_XY_twice {α : Type} (a : Descriptor α) :
    (SWAP_XY (SWAP_XY a)).rows = a.rows
      ∧ (SWAP_XY (SWAP_XY a)).cols = a.cols
      ∧ (SWAP_XY (SWAP_XY a)).flags = a.flags
      ∧ SWAP_XY (SWAP_XY a) = a :=
  ⟨rfl, rfl, rfl, rfl⟩

/-- C10: `SWAP_XY` never touches the storage buffer: for every descriptor the
storage after the operation is the storage before it, and every flag bit other
than bit 0 (Transposed) is unchanged. -/
theorem SWAP_XY_frame {α : Type} (a : Descriptor α) :
    (SWAP_XY a).storage = a.storage
      ∧ ∀ k : Nat, Int.testBit (SWAP_XY a).flags (k + 1) = Int.testBit a.flags (k + 1) :=
  ⟨rfl, fun _ => rfl⟩

/-! ## Transpose tag -/

/-- C11: for every flag value, `IS_TRANSPOSED_BLAS` is `CblasTrans` when bit 0
(Transposed) of the flags is set and `CblasNoTrans` when it is clear; replacing
every other flag bit by the bits of an arbitrary value `other` leaves the tag
unchanged. -/
theorem IS_TRANSPOSED_BLAS_dispatch (flags other : Int) :
    IS_TRANSPOSED_BLAS flags
        = (if Int.testBit flags 0 = true then CBLAS_TRANSPOSE.CblasTrans
           else CBLAS_TRANSPOSE.CblasNoTrans)
      ∧ IS_TRANSPOSED_BLAS (Int.lor (Int.land flags FLAG_TRANSPOSED)
            (Int.land other (Int.lnot FLAG_TRANSPOSED)))
        = IS_TRANSPOSED_BLAS flags := by
  have key : ∀ g : Int, IS_TRANSPOSED_BLAS g
      = (if Int.testBit g 0 = true then CBLAS_TRANSPOSE.CblasTrans
         else CBLAS_TRANSPOSE.CblasNoTrans) := by
    intro g
    unfold IS_TRANSPOSED_BLAS
    by_cases h : Int.testBit g 0 = true
    · rw [if_pos ((IS_TRANSPOSED_ne_zero_iff g).mpr h), if_pos h]
    · rw [if_neg (fun hne => h ((IS_TRANSPOSED_ne_zero_iff g).mp hne)), if_neg h]
  refine ⟨key flags, ?_⟩
  rw [key, key]
  have hbit : Int.testBit (Int.lor (Int.land flags FLAG_TRANSPOSED)
      (Int.land other (Int.lnot FLAG_TRANSPOSED))) 0 = Int.testBit flags 0 := by
    rw [Int.testBit_lor, Int.testBit_land, Int.testBit_land, Int.testBit_lnot]
    have h : Int.testBit FLAG_TRANSPOSED 0 = true := by decide
    simp [h]
  rw [hbit]

/-! ## The general test -/

/-- C12: `IS_GENERAL(flags)` is true (not zero) if and only if `flags` is 0;
in particular `IS_GENERAL(0)` is true and `IS_GENERAL(FLAG_SYMMETRIC)` is false. -/
theorem IS_GENERAL_iff (flags : Int) :
    (IS_GENERAL flags ≠ 0 ↔ flags = 0)
      ∧ IS_GENERAL 0 = 1
      ∧ IS_GENERAL FLAG_SYMMETRIC = 0 := by
  refine ⟨?_, by decide, by decide⟩
  unfold IS_GENERAL cBool
  by_cases h : flags = 0
  · simp [h]
  · simp [h]

/-! ## Minimum and maximum -/

/-- C18: `INDEX_MIN` and `INDEX_MAX` are the integer minimum and maximum: for
all integers `a`, `b`, `INDEX_MIN(a,b)` is at most `a` and at most `b` and is
one of them, `INDEX_MAX(a,b)` is at least `a` and at least `b` and is one of
them, the two add up to `a + b`, and they are `min a b` and `max a b`. -/
theorem INDEX_MIN_MAX_spec (a b : Int) :
    INDEX_MIN a b ≤ a ∧ INDEX_MIN a b ≤ b ∧ (INDEX_MIN a b = a ∨ INDEX_MIN a b = b)
      ∧ INDEX_MAX a b ≥ a ∧ INDEX_MAX a b ≥ b ∧ (INDEX_MAX a b = a ∨ INDEX_MAX a b = b)
      ∧ INDEX_MIN a b + INDEX_MAX a b = a + b
      ∧ INDEX_MIN a b = min a b ∧ INDEX_MAX a b = max a b := by
  unfold INDEX_MIN INDEX_MAX
  split <;> split <;> omega

/-! ## Single-bit flag tests -/

/-- A bitwise or is zero exactly when both operands are zero. -/
theorem lor_eq_zero_iff (x y : Int) : Int.lor x y = 0 ↔ x = 0 ∧ y = 0 := by
  have z : ∀ i, Int.testBit 0 i = false := by
    intro i
    show Nat.testBit 0 i = false
    simp
  constructor
  · intro h
    have hb : ∀ i, Int.testBit x i = false ∧ Int.testBit y i = false := by
      intro i
      have hi : Int.testBit (Int.lor x y) i = false := by rw [h]; exact z i
      rw [Int.testBit_lor] at hi
      simpa using hi
    constructor
    · apply int_eq_of_testBit_eq
      intro i
      rw [(hb i).1, z i]
    · apply int_eq_of_testBit_eq
      intro i
      rw [(hb i).2, z i]
  · rintro ⟨rfl, rfl⟩
    decide

/-- Masking distributes over a bitwise or of two masks. -/
theorem land_lor_distrib (f a b : Int) :
    Int.land f (Int.lor a b) = Int.lor (Int.land f a) (Int.land f b) := by
  apply int_eq_of_testBit_eq
  intro i
  rw [Int.testBit_land, Int.testBit_lor, Int.testBit_lor, Int.testBit_land, Int.testBit_land]
  cases Int.testBit f i <;> simp

/-- Each primitive flag test is true exactly when the bit of its flag is set. -/
theorem flag_tests_iff_testBit (f : Int) :
    (IS_TRANSPOSED f ≠ 0 ↔ Int.testBit f 0 = true)
      ∧ (IS_SYMMETRIC f ≠ 0 ↔ Int.testBit f 1 = true)
      ∧ (IS_HERMITIAN f ≠ 0 ↔ Int.testBit f 2 = true)
      ∧ (IS_UTRIANGLE f ≠ 0 ↔ Int.testBit f 3 = true)
      ∧ (IS_LTRIANGLE f ≠ 0 ↔ Int.testBit f 4 = true)
      ∧ (IS_TRIDIAGONAL f ≠ 0 ↔ Int.testBit f 5 = true)
      ∧ (IS_TINY f ≠ 0 ↔ Int.testBit f 6 = true) := by
  have h0 := land_two_pow_ne_zero f 0
  have h1 := land_two_pow_ne_zero f 1
  have h2 := land_two_pow_ne_zero f 2
  have h3 := land_two_pow_ne_zero f 3
  have h4 := land_two_pow_ne_zero f 4
  have h5 := land_two_pow_ne_zero f 5
  have h6 := land_two_pow_ne_zero f 6
  norm_num at h0 h1 h2 h3 h4 h5 h6
  refine ⟨?_, ?_, ?_, ?_, ?_, ?_, ?_⟩
  · simpa [IS_TRANSPOSED, FLAG_TRANSPOSED] using h0
  · simpa [IS_SYMMETRIC, FLAG_SYMMETRIC] using h1
  · simpa [IS_HERMITIAN, FLAG_HERMITIAN] using h2
  · simpa [IS_UTRIANGLE, FLAG_UTRIANGLE] using h3
  · simpa [IS_LTRIANGLE, FLAG_LTRIANGLE] using h4
  · simpa [IS_TRIDIAGONAL, FLAG_TRIDIAGONAL] using h5
  · simpa [IS_TINY, FLAG_TINY] using h6

/-- C13: for every flag value, `IS_TRIANGLE(flags)` is true (not zero) if and
only if `IS_UTRIANGLE(flags)` or `IS_LTRIANGLE(flags)` is true, that is, if and
only if bit 3 (upper triangular) or bit 4 (lower triangular) is set. -/
theorem IS_TRIANGLE_iff (flags : Int) :
    (IS_TRIANGLE flags ≠ 0 ↔ (IS_UTRIANGLE flags ≠ 0 ∨ IS_LTRIANGLE flags ≠ 0))
      ∧ (IS_TRIANGLE flags ≠ 0
          ↔ (Int.testBit flags 3 = true ∨ Int.testBit flags 4 = true)) := by
  have h1 : IS_TRIANGLE flags ≠ 0 ↔ (IS_UTRIANGLE flags ≠ 0 ∨ IS_LTRIANGLE flags ≠ 0) := by
    unfold IS_TRIANGLE FLAG_TRIANGLE IS_UTRIANGLE IS_LTRIANGLE
    rw [land_lor_distrib, Ne, lor_eq_zero_iff]
    tauto
  refine ⟨h1, ?_⟩
  obtain ⟨_, _, _, hu, hl, _, _⟩ := flag_tests_iff_testBit flags
  rw [h1, hu, hl]

/-- C14: the seven primitive tests are independent.  Each of `IS_TRANSPOSED`,
`IS_SYMMETRIC`, `IS_HERMITIAN`, `IS_UTRIANGLE`, `IS_LTRIANGLE`,
`IS_TRIDIAGONAL` and `IS_TINY` is true exactly when its own flag bit (bits 0
to 6) is set; for every choice of the seven truth values there is a flag value
on which exactly the chosen tests are true; and the seven flag constants are
the distinct single bits `2^0` to `2^6`. -/
theorem flag_tests_independent :
    (∀ f : Int,
        (IS_TRANSPOSED f ≠ 0 ↔ Int.testBit f 0 = true)
      ∧ (IS_SYMMETRIC f ≠ 0 ↔ Int.testBit f 1 = true)
      ∧ (IS_HERMITIAN f ≠ 0 ↔ Int.testBit f 2 = true)
      ∧ (IS_UTRIANGLE f ≠ 0 ↔ Int.testBit f 3 = true)
      ∧ (IS_LTRIANGLE f ≠ 0 ↔ Int.testBit f 4 = true)
      ∧ (IS_TRIDIAGONAL f ≠ 0 ↔ Int.testBit f 5 = true)
      ∧ (IS_TINY f ≠ 0 ↔ Int.testBit f 6 = true))
    ∧ (∀ t s h u l d y : Bool, ∃ f : Int,
        (IS_TRANSPOSED f ≠ 0 ↔ t = true)
      ∧ (IS_SYMMETRIC f ≠ 0 ↔ s = true)
      ∧ (IS_HERMITIAN f ≠ 0 ↔ h = true)
      ∧ (IS_UTRIANGLE f ≠ 0 ↔ u = true)
      ∧ (IS_LTRIANGLE f ≠ 0 ↔ l = true)
      ∧ (IS_TRIDIAGONAL f ≠ 0 ↔ d = true)
      ∧ (IS_TINY f ≠ 0 ↔ y = true))
    ∧ (FLAG_TRANSPOSED = 2 ^ 0 ∧ FLAG_SYMMETRIC = 2 ^ 1 ∧ FLAG_HERMITIAN = 2 ^ 2
      ∧ FLAG_UTRIANGLE = 2 ^ 3 ∧ FLAG_LTRIANGLE = 2 ^ 4 ∧ FLAG_TRIDIAGONAL = 2 ^ 5
      ∧ FLAG_TINY = 2 ^ 6) := by
  refine ⟨flag_tests_iff_testBit, ?_, by decide⟩
  intro t s h u l d y
  refine ⟨Int.lor (Int.lor (Int.lor (Int.lor (Int.lor (Int.lor
    (cond t FLAG_TRANSPOSED 0) (cond s FLAG_SYMMETRIC 0)) (cond h FLAG_HERMITIAN 0))
    (cond u FLAG_UTRIANGLE 0)) (cond l FLAG_LTRIANGLE 0)) (cond d FLAG_TRIDIAGONAL 0))
    (cond y FLAG_TINY 0), ?_⟩
  cases t <;> cases s <;> cases h <;> cases u <;> cases l <;> cases d <;> cases y <;> decide

/-! ## Bounds of the complex offsets -/

/-- Two offsets `q1 * n + t1` and `q2 * n + t2` with `0 <= t1, t2 < n` are equal
only when `q1 = q2` and `t1 = t2`. -/
theorem mul_add_inj (n q1 t1 q2 t2 : Int)
    (h1 : 0 ≤ t1) (h2 : t1 < n) (h3 : 0 ≤ t2) (h4 : t2 < n)
    (h : q1 * n + t1 = q2 * n + t2) : q1 = q2 ∧ t1 = t2 := by
  have hq : q1 = q2 := by
    rcases lt_trichotomy q1 q2 with hlt | heq | hgt
    · exfalso
      have : (q1 + 1) * n ≤ q2 * n := mul_le_mul_of_nonneg_right (by omega) (by omega)
      nlinarith
    · exact heq
    · exfalso
      have : (q2 + 1) * n ≤ q1 * n := mul_le_mul_of_nonneg_right (by omega) (by omega)
      nlinarith
  subst hq
  exact ⟨rfl, by omega⟩

/-- Every `k` with `0 <= k < m * n` is `q * n + t` for some `0 <= q < m` and
`0 <= t < n`, namely the quotient and the remainder of `k` by `n`. -/
theorem mul_add_surj (m n k : Int) (hn : 0 < n) (hk0 : 0 ≤ k) (hk1 : k < m * n) :
    0 ≤ k / n ∧ k / n < m ∧ 0 ≤ k % n ∧ k % n < n ∧ k / n * n + k % n = k :=
  ⟨Int.ediv_nonneg hk0 (le_of_lt hn), Int.ediv_lt_of_lt_mul hn hk1,
    Int.emod_nonneg k (ne_of_gt hn), Int.emod_lt_of_pos k hn, Int.ediv_add_emod' k n⟩

/-- C16: the real layout is a bijection.  For every flag value and positive
`rowsize`, `colsize`, the map `(row, col) -> INDEX_XY` restricted to
`0 <= row < rowsize`, `0 <= col < colsize` is injective (two distinct elements
never share a slot) and onto the offsets `0 .. rowsize*colsize - 1` (every slot
holds an element, hence exactly one). -/
theorem INDEX_XY_bijection (flags rowsize colsize : Int)
    (hrs : 0 < rowsize) (hcs : 0 < colsize) :
    (∀ r1 c1 r2 c2 : Int,
        0 ≤ r1 → r1 < rowsize → 0 ≤ c1 → c1 < colsize →
        0 ≤ r2 → r2 < rowsize → 0 ≤ c2 → c2 < colsize →
        INDEX_XY flags rowsize colsize r1 c1 = INDEX_XY flags rowsize colsize r2 c2 →
        r1 = r2 ∧ c1 = c2)
      ∧ (∀ k : Int, 0 ≤ k → k < rowsize * colsize →
          ∃ r c : Int, 0 ≤ r ∧ r < rowsize ∧ 0 ≤ c ∧ c < colsize
            ∧ INDEX_XY flags rowsize colsize r c = k) := by
  constructor
  · intro r1 c1 r2 c2 hr10 hr11 hc10 hc11 hr20 hr21 hc20 hc21 h
    unfold INDEX_XY at h
    split at h
    · unfold INDEX_XY_COLMAJOR at h
      obtain ⟨hc, hr⟩ := mul_add_inj rowsize c1 r1 c2 r2 hr10 hr11 hr20 hr21 h
      exact ⟨hr, hc⟩
    · unfold INDEX_XY_ROWMAJOR at h
      exact mul_add_inj colsize r1 c1 r2 c2 hc10 hc11 hc20 hc21 h
  · intro k hk0 hk1
    unfold INDEX_XY
    split
    · have hk1s : k < colsize * rowsize := by rw [mul_comm]; exact hk1
      obtain ⟨a1, a2, a3, a4, a5⟩ := mul_add_surj colsize rowsize k hrs hk0 hk1s
      exact ⟨k % rowsize, k / rowsize, a3, a4, a1, a2, a5⟩
    · obtain ⟨a1, a2, a3, a4, a5⟩ := mul_add_surj rowsize colsize k hcs hk0 hk1
      exact ⟨k / colsize, k % colsize, a1, a2, a3, a4, a5⟩

/-- Witness of C16: the layout of a 3x4 untransposed matrix. -/
theorem INDEX_XY_bijection_witness :
    (0 : Int) < 3 ∧ (0 : Int) < 4
      ∧ (∀ r1 c1 r2 c2 : Int,
          0 ≤ r1 → r1 < 3 → 0 ≤ c1 → c1 < 4 →
          0 ≤ r2 → r2 < 3 → 0 ≤ c2 → c2 < 4 →
          INDEX_XY 0 3 4 r1 c1 = INDEX_XY 0 3 4 r2 c2 →
          r1 = r2 ∧ c1 = c2)
      ∧ (∀ k : Int, 0 ≤ k → k < 3 * 4 →
          ∃ r c : Int, 0 ≤ r ∧ r < 3 ∧ 0 ≤ c ∧ c < 4 ∧ INDEX_XY 0 3 4 r c = k) :=
  ⟨by decide, by decide, INDEX_XY_bijection 0 3 4 (by decide) (by decide)⟩

end PLA
